import Mathlib

/-!
Shallow embedding of `tv_grab_th_dttguide.py`, an XMLTV grabber for
Thailand's DTT Guide.  Python dict records become Lean structures holding
the fields the program reads; `datetime` values become civil-time seconds
(an `Int` counting seconds since 1970-01-01 00:00 in the broadcaster's
fixed UTC+7 wall clock — all datetimes in the program carry the same fixed
offset `TZ_THAI`, so comparisons between aware datetimes coincide with
comparisons of these local-second counts); `timedelta` values produced by
`parse_duration` become rational seconds (`float`s of plain decimal
literals are exact at this precision, and `timedelta`/`datetime` keep
microsecond precision which rationals refine); fallible operations
(`strptime`, tuple unpacking, `float()`) return `Option`.
-/

namespace DTTG

/-- A program-listing record, holding the dict fields the program reads. -/
structure ProgramRecord where
  channelNo : String
  pgDate : String
  pgBeginTime : String
  pgDuration : String
  pgTitle : String
  pgDesc : Option String
  closeCaptFlag : String
  signLangFlag : String
  deriving DecidableEq, Repr

/-- A channel-name record, holding the dict fields the program reads. -/
structure ChannelRecord where
  channelNo : String
  stnName : String
  stnNickname : String
  deriving DecidableEq, Repr

/-- A channel-logo record, holding the dict fields the program reads. -/
structure LogoRecord where
  channelNo : String
  channelLogoImage : String
  deriving DecidableEq, Repr

/-- `DTTGuide.ChannelType`: the NATIONAL/LOCAL channel-category enum. -/
inductive ChannelType where
  | NATIONAL
  | LOCAL
  deriving DecidableEq, Repr

/-- An `xml.etree.ElementTree.Element`: tag, attributes (in insertion
order), optional text, child elements (in insertion order). -/
inductive Element where
  | el (tag : String) (attrs : List (String × String)) (txt : Option String)
      (children : List Element)

/-- The tag of an element. -/
def Element.tag : Element → String
  | .el t _ _ _ => t

/-- The attribute list of an element. -/
def Element.attrs : Element → List (String × String)
  | .el _ a _ _ => a

/-- The text of an element. -/
def Element.txt : Element → Option String
  | .el _ _ t _ => t

/-- The children of an element. -/
def Element.children : Element → List Element
  | .el _ _ _ c => c

/-- Look up an attribute value by name. -/
def Element.attr (e : Element) (name : String) : Option String :=
  e.attrs.lookup name

/-! ### Numeric-string parsing

`float()` applied to the plain decimal literals that occur in duration
fields (digit strings with at most one `.`); other accepted `float`
syntax (signs, exponents, inf/nan, surrounding whitespace) does not occur
in `H:MM:SS` guide data and is out of the model.  A plain decimal with at
most a few fractional digits is exact both as a binary64-rounded
`timedelta` (microsecond resolution) and as a rational. -/

/-- Split a character list on a separator character (`str.split(sep)` for
the one-character separators `":"`, `"-"`, `" "`, `"."` the program
uses). -/
def splitOnCharAux (sep : Char) : List Char → List Char → List (List Char)
  | [], acc => [acc.reverse]
  | c :: cs, acc =>
    if c = sep then acc.reverse :: splitOnCharAux sep cs []
    else splitOnCharAux sep cs (c :: acc)

/-- `s.split(sep)` for a one-character separator. -/
def splitOnChar (sep : Char) (s : String) : List String :=
  (splitOnCharAux sep s.data []).map String.mk

/-- Read a nonempty all-digit string as a natural number. -/
def digitsToNatAux : List Char → ℕ → Option ℕ
  | [], acc => some acc
  | c :: cs, acc =>
    if c.isDigit then digitsToNatAux cs (acc * 10 + (c.toNat - 48))
    else none

/-- Read a nonempty all-digit string as a natural number. -/
def digitsToNat (s : String) : Option ℕ :=
  match s.data with
  | [] => none
  | l => digitsToNatAux l 0

/-- Parse a plain decimal literal (`"30"`, `"30.5"`, `".5"`, `"5."`) as an
exact rational; `none` on anything else (models `float()` raising). -/
def parseDecimal (s : String) : Option ℚ :=
  match splitOnChar '.' s with
  | [w] => (digitsToNat w).map (fun n => (n : ℚ))
  | [w, f] =>
    if w = "" && f = "" then none
    else do
      let wn ← if w = "" then some 0 else digitsToNat w
      let fn ← if f = "" then some 0 else digitsToNat f
      pure ((wn : ℚ) + (fn : ℚ) / ((10 : ℚ) ^ f.length))
  | _ => none

/-- `parse_duration`: split `pgDuration` on `":"` into exactly three
fields (tuple unpacking raises otherwise), convert each with `float`, and
build `timedelta(hours=…, minutes=…, seconds=…)`, i.e. that many seconds. -/
def parse_duration (pgDuration : String) : Option ℚ :=
  match splitOnChar ':' pgDuration with
  | [hours, minutes, seconds] => do
    let h ← parseDecimal hours
    let m ← parseDecimal minutes
    let s ← parseDecimal seconds
    pure (3600 * h + 60 * m + s)
  | _ => none

/-! ### Civil-time arithmetic

`datetime` arithmetic over the proleptic Gregorian calendar, via the
standard days-from-civil / civil-from-days algorithms.  All divisors are
positive, so Lean's `Int` `/` and `%` (Euclidean) agree with floor
division as the algorithms require. -/

/-- Gregorian leap-year rule. -/
def isLeap (y : ℤ) : Bool :=
  y % 4 = 0 && (y % 100 ≠ 0 || y % 400 = 0)

/-- Number of days in a month of a given year. -/
def daysInMonth (y m : ℤ) : ℤ :=
  if m = 2 then (if isLeap y then 29 else 28)
  else if m = 4 ∨ m = 6 ∨ m = 9 ∨ m = 11 then 30
  else 31

/-- Days since 1970-01-01 of a civil date. -/
def daysFromCivil (y m d : ℤ) : ℤ :=
  let y' := if m ≤ 2 then y - 1 else y
  let era := y' / 400
  let yoe := y' - era * 400
  let mp := if m > 2 then m - 3 else m + 9
  let doy := (153 * mp + 2) / 5 + d - 1
  let doe := yoe * 365 + yoe / 4 - yoe / 100 + doy
  era * 146097 + doe - 719468

/-- Civil date of a day count since 1970-01-01. -/
def civilFromDays (z : ℤ) : ℤ × ℤ × ℤ :=
  let z' := z + 719468
  let era := z' / 146097
  let doe := z' - era * 146097
  let yoe := (doe - doe / 1460 + doe / 36524 - doe / 146096) / 365
  let y := yoe + era * 400
  let doy := doe - (365 * yoe + yoe / 4 - yoe / 100)
  let mp := (5 * doy + 2) / 153
  let d := doy - (153 * mp + 2) / 5 + 1
  let m := if mp < 10 then mp + 3 else mp - 9
  (if m ≤ 2 then y + 1 else y, m, d)

/-- A numeric field of `strptime`: one or two digits (the `%d`, `%m`,
`%y`, `%H`, `%M`, `%S` directives each match at most two digits). -/
def parseField2 (s : String) : Option ℕ :=
  if s.length = 0 || s.length > 2 then none else digitsToNat s

/-- `datetime.strptime(s, "%d-%m-%y %H:%M:%S")`, as local-seconds since
1970-01-01 00:00 on the same (UTC+7) wall clock.  `%y` maps 00–68 to
2000–2068 and 69–99 to 1969–1999; the `datetime` constructor then
validates month, day-of-month, hour, minute and second ranges. -/
def strptime_dmy_hms (s : String) : Option ℤ :=
  match splitOnChar ' ' s with
  | [ds, ts] =>
    match splitOnChar '-' ds, splitOnChar ':' ts with
    | [dayS, monS, yearS], [hourS, minS, secS] => do
      let d ← parseField2 dayS
      let m ← parseField2 monS
      let yy ← parseField2 yearS
      let h ← parseField2 hourS
      let mi ← parseField2 minS
      let sec ← parseField2 secS
      let y : ℤ := if yy ≤ 68 then 2000 + yy else 1900 + yy
      if 1 ≤ m ∧ m ≤ 12 ∧ 1 ≤ d ∧ (d : ℤ) ≤ daysInMonth y m ∧
          h ≤ 23 ∧ mi ≤ 59 ∧ sec ≤ 59 then
        some (daysFromCivil y m d * 86400 + h * 3600 + mi * 60 + sec)
      else none
    | _, _ => none
  | _ => none

/-- The start instant of a program record: `strptime` applied to
`f"{pgDate} {pgBeginTime}"` with format `"%d-%m-%y %H:%M:%S"`, made aware
in `TZ_THAI` (UTC+7) — represented as UTC+7 local seconds. -/
def parseStart (p : ProgramRecord) : Option ℤ :=
  strptime_dmy_hms (p.pgDate ++ " " ++ p.pgBeginTime)

/-- Zero-pad a nonnegative integer to a field width. -/
def padNum (w : ℕ) (n : ℤ) : String :=
  let s := toString n.toNat
  String.mk (List.replicate (w - s.length) '0') ++ s

/-- `strftime("%Y%m%d%H%M%S")` of a local-seconds instant (no sub-second
directive, so this only sees whole seconds). -/
def fmtTs (t : ℤ) : String :=
  let days := t / 86400
  let sod := t % 86400
  let c := civilFromDays days
  padNum 4 c.1 ++ padNum 2 c.2.1 ++ padNum 2 c.2.2 ++
    padNum 2 (sod / 3600) ++ padNum 2 (sod / 60 % 60) ++ padNum 2 (sod % 60)

/-- `strftime("%Y%m%d%H%M%S %z")` of an exact (rational-second) instant in
`TZ_THAI`: the `datetime` keeps only whole microseconds of which `%S`
prints the whole-second part, so the fractional part is floored away, and
`%z` renders the fixed offset `+0700`. -/
def fmtTsTz (t : ℚ) : String :=
  fmtTs ⌊t⌋ ++ " +0700"

/-! ### Document builder -/

/-- A `<display-name lang="th">` element with the given text. -/
def mkDisplayName (s : String) : Element :=
  .el "display-name" [("lang", "th")] (some s) []

/-- The loop body of `channels_from_chnames_and_chlogos`: build one
`<channel>` element for a channel record.  The children are, in insertion
order: the display-name override if `dispname_exceptions` has the key
(`dict[...]` raising `KeyError` is caught and skipped), the official
`stnName`, the `stnNickname` when it differs from `stnName`, and an
`<icon>` from the first logo whose `channelNo` matches (the loop `break`s
at the first match). -/
def mkChannelElement (dispname_exceptions : List (String × String))
    (chlogos : List LogoRecord) (ch : ChannelRecord) : Element :=
  .el "channel" [("id", ch.channelNo ++ ".dttguide.nbtc.go.th")] none
    ((match dispname_exceptions.lookup ch.channelNo with
      | some v => [mkDisplayName v]
      | none => []) ++
     [mkDisplayName ch.stnName] ++
     (if ch.stnNickname ≠ ch.stnName then [mkDisplayName ch.stnNickname]
      else []) ++
     (match chlogos.find? (fun logo => logo.channelNo == ch.channelNo) with
      | some logo =>
        [.el "icon"
          [("src", "data:image/png;base64," ++ logo.channelLogoImage)] none []]
      | none => []))

/-- `channels_from_chnames_and_chlogos`: one `<channel>` element per
channel record, in input order. -/
def channels_from_chnames_and_chlogos
    (chnames : List ChannelRecord) (chlogos : List LogoRecord)
    (dispname_exceptions : List (String × String)) : List Element :=
  chnames.map (mkChannelElement dispname_exceptions chlogos)

/-- The loop body of `programme_from_programdata`: build one
`<programme>` element for a program record; `none` models `strptime` or
`parse_duration` raising.  `stop = start + parse_duration(...)` is exact
`datetime` arithmetic; both attributes are rendered with
`strftime("%Y%m%d%H%M%S %z")`. -/
def mkProgrammeElement (p : ProgramRecord) : Option Element := do
  let start ← parseStart p
  let dur ← parse_duration p.pgDuration
  pure (.el "programme"
    [("channel", p.channelNo ++ ".dttguide.nbtc.go.th"),
     ("start", fmtTsTz (start : ℚ)),
     ("stop", fmtTsTz ((start : ℚ) + dur))] none
    ([.el "title" [("lang", "th")] (some p.pgTitle) []] ++
     (match p.pgDesc with
      | some d => [.el "desc" [("lang", "th")] (some d) []]
      | none => []) ++
     (if p.closeCaptFlag = "Y" then [.el "subtitles" [("type", "teletext")] none []]
      else []) ++
     (if p.signLangFlag = "Y" then [.el "subtitles" [("type", "deaf-signed")] none []]
      else [])))

/-- `programme_from_programdata`: one `<programme>` element per program
record, in input order; the first record that fails to parse aborts the
run. -/
def programme_from_programdata : List ProgramRecord → Option (List Element)
  | [] => some []
  | p :: ps => do
    let e ← mkProgrammeElement p
    let rest ← programme_from_programdata ps
    pure (e :: rest)

/-! ### Date-window filter -/

/-- `whithin_start_dates` (sic): parse the record's start instant; drop
the record when a set `earliest_start` exceeds it or a set
`latest_start_exclusive` does not; `none` models `strptime` raising,
which aborts the whole `filter`. -/
def whithin_start_dates (earliest_start latest_start_exclusive : Option ℤ)
    (p : ProgramRecord) : Option Bool := do
  let start ← parseStart p
  if (match earliest_start with
      | some e => decide (start < e)
      | none => false) then
    pure false
  else if (match latest_start_exclusive with
      | some l => decide (start ≥ l)
      | none => false) then
    pure false
  else
    pure true

/-- `list(filter(whithin_start_dates, program_data))`: keep records for
which the predicate returns true; a record on which it raises aborts. -/
def filterPrograms (earliest_start latest_start_exclusive : Option ℤ) :
    List ProgramRecord → Option (List ProgramRecord)
  | [] => some []
  | p :: ps => do
    let keep ← whithin_start_dates earliest_start latest_start_exclusive p
    let rest ← filterPrograms earliest_start latest_start_exclusive ps
    pure (if keep then p :: rest else rest)

/-! ### Coverage check -/

/-- The coverage loop of `fetch_filter_convert` (lines 223–239): walk the
filtered records accumulating the two flags and return `true` as soon as
both are set; reaching the end of the list yields `false`. -/
def coverLoop (e l : ℤ) (coversE coversL : Bool) :
    List ProgramRecord → Option Bool
  | [] => some false
  | p :: ps => do
    let start ← parseStart p
    let coversE' := coversE || decide (start - e < 86400)
    let coversL' := coversL || decide (l - start < 86400)
    if coversE' && coversL' then pure true
    else coverLoop e l coversE' coversL' ps

/-- The coverage check of `fetch_filter_convert`: trivially `true` when
either bound is unset, otherwise the flag loop over the (already
filtered) program data. -/
def coversWindow (earliest_start latest_start_exclusive : Option ℤ)
    (program_data : List ProgramRecord) : Option Bool :=
  match earliest_start, latest_start_exclusive with
  | some e, some l => coverLoop e l false false program_data
  | _, _ => some true

/-! ### Guide client

The remote API is a black box; it is modelled as an oracle giving each
endpoint's decoded payload, and each `DTTGuide` accessor records the one
POST request it issues (`getJson`'s `action` and optional
`channelType`), so request counts and ordering are observable. -/

/-- The three `DTTGuide` actions. -/
inductive ApiAction where
  | getProgramDataWeb
  | getChannelNameWeb
  | getChannelLogoMediaWeb
  deriving DecidableEq, Repr

/-- One `getJson` POST request: the action and the `channelType` sent in
the JSON body (absent when the accessor passes no category). -/
structure ApiRequest where
  action : ApiAction
  channelType : Option ChannelType
  deriving DecidableEq, Repr

/-- The upstream oracle: what each endpoint returns, already projected to
its payload field (`"results"` or `"channelLogoMediaImage"`). -/
structure GuideApi where
  programData : ChannelType → List ProgramRecord
  channelNames : List ChannelRecord
  channelLogos : ChannelType → List LogoRecord

/-- `DTTGuide.getProgramDataWeb(channel_type)`: one request carrying the
category; payload from `"results"`. -/
def getProgramDataWeb (api : GuideApi) (channel_type : ChannelType) :
    List ApiRequest × List ProgramRecord :=
  ([⟨.getProgramDataWeb, some channel_type⟩], api.programData channel_type)

/-- `DTTGuide.getChannelNameWeb()`: one request with no category; payload
from `"results"`. -/
def getChannelNameWeb (api : GuideApi) :
    List ApiRequest × List ChannelRecord :=
  ([⟨.getChannelNameWeb, none⟩], api.channelNames)

/-- `DTTGuide.getChannelLogoMediaWeb(channel_type)`: one request carrying
the category; payload from `"channelLogoMediaImage"`. -/
def getChannelLogoMediaWeb (api : GuideApi) (channel_type : ChannelType) :
    List ApiRequest × List LogoRecord :=
  ([⟨.getChannelLogoMediaWeb, some channel_type⟩], api.channelLogos channel_type)

/-- The fetch portion of `fetch_filter_convert` (lines 163–169): channel
names (single call), then logos NATIONAL + LOCAL, then program data
NATIONAL + LOCAL, concatenating per-category payloads in that order; the
issued requests are collected in evaluation order. -/
def fetchStage (api : GuideApi) :
    List ApiRequest ×
      (List ChannelRecord × List LogoRecord × List ProgramRecord) :=
  let (r1, chnames) := getChannelNameWeb api
  let (r2, logosN) := getChannelLogoMediaWeb api .NATIONAL
  let (r3, logosL) := getChannelLogoMediaWeb api .LOCAL
  let (r4, progsN) := getProgramDataWeb api .NATIONAL
  let (r5, progsL) := getProgramDataWeb api .LOCAL
  (r1 ++ r2 ++ r3 ++ r4 ++ r5, (chnames, logosN ++ logosL, progsN ++ progsL))

/-! ### Pipeline -/

/-- The fixed display-name exception table passed by
`fetch_filter_convert` to `channels_from_chnames_and_chlogos`. -/
def dttgDispnameExceptions : List (String × String) :=
  [("03", "ThaiPBS"), ("27", "ช่อง 8")]

/-- The fixed attributes of the root `<tv>` element. -/
def tvRootAttrs : List (String × String) :=
  [("source-info-name", "DTT Guide"),
   ("source-info-url", "https://dttguide.nbtc.go.th/dttguide/"),
   ("generator-info-name", "tv_grab_th_dttguide"),
   ("generator-info-url", "https://github.com/peat-psuwit/tv_grab_th_dttguide")]

/-- Lines 186–213 of `fetch_filter_convert` applied to already filtered
program data: collect the channel keys that still have a program (a
Python `set`, modelled as the list of keys with list membership), keep
only channel records whose key is in it, and assemble the `<tv>` tree
with channel elements first and programme elements after. -/
def buildTvDoc (chnames : List ChannelRecord) (chlogos : List LogoRecord)
    (filtered_program_data : List ProgramRecord) : Option Element := do
  let channels_with_program := filtered_program_data.map (·.channelNo)
  let chnames' := chnames.filter
    (fun ch => decide (ch.channelNo ∈ channels_with_program))
  let programmes ← programme_from_programdata filtered_program_data
  pure (.el "tv" tvRootAttrs none
    (channels_from_chnames_and_chlogos chnames' chlogos
        dttgDispnameExceptions ++
     programmes))

/-- An observable effect of a run: writing the document to the output
destination, printing the warning to standard error, or returning an
exit code to the shell. -/
inductive Event where
  | writeDoc (doc : Element)
  | warnStderr
  | exitCode (n : ℕ)

/-- The post-fetch portion of `fetch_filter_convert`: filter the program
data by the window, build and write the document, then run the coverage
check; returns the effect trace so far and the coverage verdict, `none`
modelling an uncaught exception. -/
def fetch_filter_convert (chnames : List ChannelRecord)
    (chlogos : List LogoRecord) (program_data : List ProgramRecord)
    (earliest_start latest_start_exclusive : Option ℤ) :
    Option (List Event × Bool) := do
  let filtered ← filterPrograms earliest_start latest_start_exclusive
    program_data
  let doc ← buildTvDoc chnames chlogos filtered
  let covers ← coversWindow earliest_start latest_start_exclusive filtered
  pure ([.writeDoc doc], covers)

/-- The tail of `main` (lines 294–303): run the pipeline; on success exit
0, and on a failed coverage check print the warning to standard error and
exit 1 — the already-written document is part of the trace either way. -/
def mainRun (chnames : List ChannelRecord) (chlogos : List LogoRecord)
    (program_data : List ProgramRecord)
    (earliest_start latest_start_exclusive : Option ℤ) :
    Option (List Event) := do
  let (trace, covers_days) ← fetch_filter_convert chnames chlogos
    program_data earliest_start latest_start_exclusive
  pure (trace ++
    (if covers_days then [.exitCode 0] else [.warnStderr, .exitCode 1]))

/-! ### Observation helpers -/

/-- The `id` attributes of the `<channel>` children of a document. -/
def channelIds (doc : Element) : List String :=
  doc.children.filterMap
    (fun c => if c.tag = "channel" then c.attr "id" else none)

/-- The `channel` attributes of the `<programme>` children of a document. -/
def progChannelRefs (doc : Element) : List String :=
  doc.children.filterMap
    (fun c => if c.tag = "programme" then c.attr "channel" else none)

/-- The texts of the `display-name` children of an element, in order. -/
def displayNameTexts (e : Element) : List String :=
  e.children.filterMap
    (fun c => if c.tag = "display-name" then c.txt else none)

/-- The `src` attributes of the `icon` children of an element, in order. -/
def iconSrcs (e : Element) : List String :=
  e.children.filterMap
    (fun c => if c.tag = "icon" then c.attr "src" else none)

/-- The start instants of a record list, `none` when any record fails to
parse (the order in which `strptime` raises across a traversal). -/
def parseStarts : List ProgramRecord → Option (List ℤ)
  | [] => some []
  | p :: ps => do
    let t ← parseStart p
    let ts ← parseStarts ps
    pure (t :: ts)

/-- An upstream oracle on which every endpoint returns no records. -/
def emptyApi : GuideApi where
  programData := fun _ => []
  channelNames := []
  channelLogos := fun _ => []

/-- A concrete program record: 2025-01-01 12:00:00+07:00, 90 minutes. -/
def sampleProg : ProgramRecord where
  channelNo := "99"
  pgDate := "01-01-25"
  pgBeginTime := "12:00:00"
  pgDuration := "1:30:00"
  pgTitle := "News"
  pgDesc := none
  closeCaptFlag := "N"
  signLangFlag := "N"

/-- A concrete program record with a fractional-second duration. -/
def fracProg : ProgramRecord where
  channelNo := "99"
  pgDate := "01-01-25"
  pgBeginTime := "12:00:00"
  pgDuration := "0:00:30.5"
  pgTitle := "Short"
  pgDesc := none
  closeCaptFlag := "N"
  signLangFlag := "N"

/-- A concrete channel record matching `sampleProg`'s channel. -/
def sampleChannel : ChannelRecord where
  channelNo := "99"
  stnName := "Channel 99"
  stnNickname := "Ch99"

end DTTG

namespace DTTG

/-- C1: for every program record whose start instant parses (from
`pgDate` `DD-MM-YY` plus `pgBeginTime` `HH:MM:SS` in UTC+7), the record
survives `whithin_start_dates` if and only if (`earliest_start` is unset
OR `start ≥ earliest_start`) AND (`latest_start_exclusive` is unset OR
`start < latest_start_exclusive`); in particular with both bounds unset
every record survives. -/
theorem whithin_start_dates_spec (e l : Option ℤ) (p : ProgramRecord)
    (t : ℤ) (h : parseStart p = some t) :
    whithin_start_dates e l p = some true ↔
      ((e = none ∨ ∃ ev, e = some ev ∧ ev ≤ t) ∧
       (l = none ∨ ∃ lv, l = some lv ∧ t < lv)) := by
  cases e <;> cases l <;> simp [whithin_start_dates, h] <;>
    (try split_ifs) <;> simp_all

/-- Witness for C1: `sampleProg` parses to 2025-01-01T12:00:00+07:00 and
survives the unbounded filter. -/
theorem whithin_start_dates_witness :
    whithin_start_dates none none sampleProg = some true :=
  (whithin_start_dates_spec none none sampleProg 1735732800 (by decide)).mpr
    ⟨Or.inl rfl, Or.inl rfl⟩

/-- C7: the date-window filter is idempotent — filtering an
already-filtered list with the same window returns it unchanged. -/
theorem filterPrograms_idempotent (e l : Option ℤ)
    (pd : List ProgramRecord) :
    (filterPrograms e l pd).bind (filterPrograms e l) =
      filterPrograms e l pd := by
  induction pd with
  | nil => simp [filterPrograms]
  | cons p ps ih =>
    simp only [filterPrograms]
    cases hw : whithin_start_dates e l p with
    | none => simp [hw]
    | some b =>
      cases hr : filterPrograms e l ps with
      | none => simp [hw, hr]
      | some rest =>
        rw [hr] at ih
        simp only [Option.some_bind] at ih
        cases b with
        | false => simpa [hw, hr] using ih
        | true => simp [hw, hr, filterPrograms, ih]

/-- The coverage loop, expressed through its two accumulated flags: given
that every record's start parses, the loop computes the disjunction of
the per-record window tests, provided it is not entered with both flags
already set (the code returns before that can happen). -/
theorem coverLoop_eq (e l : ℤ) (pd : List ProgramRecord) (ts : List ℤ)
    (cE cL : Bool) (h : parseStarts pd = some ts)
    (hcc : ¬(cE = true ∧ cL = true)) :
    coverLoop e l cE cL pd =
      some ((cE || ts.any fun t => decide (t - e < 86400)) &&
            (cL || ts.any fun t => decide (l - t < 86400))) := by
  induction pd generalizing ts cE cL with
  | nil =>
    simp only [parseStarts, Option.some.injEq] at h
    subst h
    simp only [coverLoop, List.any_nil, Bool.or_false]
    cases cE <;> cases cL <;> simp_all
  | cons p ps ih =>
    simp only [parseStarts, Option.bind_eq_bind] at h
    cases hp : parseStart p with
    | none => rw [hp] at h; simp at h
    | some t =>
      rw [hp] at h
      simp only [Option.some_bind] at h
      cases hps : parseStarts ps with
      | none => rw [hps] at h; simp at h
      | some ts' =>
        rw [hps] at h
        simp only [Option.some_bind, Option.pure_def, Option.some.injEq] at h
        subst h
        simp only [coverLoop, hp, Option.pure_def, Option.bind_eq_bind,
          Option.some_bind, List.any_cons]
        by_cases hb : ((cE || decide (t - e < 86400)) &&
            (cL || decide (l - t < 86400))) = true
        · rw [if_pos hb]
          simp only [Bool.and_eq_true, Bool.or_eq_true] at hb
          simp only [Option.some.injEq]
          cases hb with
          | intro h1 h2 =>
            rcases h1 with h1 | h1 <;> rcases h2 with h2 | h2 <;>
              simp [h1, h2]
        · rw [if_neg hb]
          rw [ih ts' (cE || decide (t - e < 86400))
            (cL || decide (l - t < 86400)) hps
            (by simpa [Bool.and_eq_true] using hb)]
          congr 1
          simp [Bool.or_assoc]

/-- C3: on a list whose start instants all parse, the coverage check is
`true` when either bound is unset, and otherwise is `true` exactly when
some record starts within 24 hours after `earliest_start` (negative
differences included) and some record starts within 24 hours before
`latest_start_exclusive`. -/
theorem coversWindow_spec (e l : Option ℤ) (pd : List ProgramRecord)
    (ts : List ℤ) (h : parseStarts pd = some ts) :
    coversWindow e l pd =
      some (match e, l with
            | some ev, some lv =>
              (ts.any fun t => decide (t - ev < 86400)) &&
              (ts.any fun t => decide (lv - t < 86400))
            | _, _ => true) := by
  cases e with
  | none => rfl
  | some ev =>
    cases l with
    | none => rfl
    | some lv =>
      simpa using coverLoop_eq ev lv pd ts false false h (by simp)

/-- Witness for C3: a one-hour window starting at `sampleProg`'s start is
covered by `sampleProg` alone. -/
theorem coversWindow_witness :
    coversWindow (some 1735732800) (some 1735736400) [sampleProg] =
      some true := by
  rw [coversWindow_spec (some 1735732800) (some 1735736400) [sampleProg]
    [1735732800] (by decide)]
  decide

/-- C4: a channel element's display-names are, in order, the override
from the fixed exception table when its `channelNo` has an entry, then
always the official `stnName`, then `stnNickname` exactly when it differs
from `stnName`; and the fixed table maps "03" to "ThaiPBS" and "27" to
"ช่อง 8". -/
theorem channel_display_names_spec (chlogos : List LogoRecord)
    (ch : ChannelRecord) :
    displayNameTexts (mkChannelElement dttgDispnameExceptions chlogos ch) =
      (match dttgDispnameExceptions.lookup ch.channelNo with
       | some v => [v]
       | none => []) ++
      [ch.stnName] ++
      (if ch.stnNickname ≠ ch.stnName then [ch.stnNickname] else []) ∧
    dttgDispnameExceptions.lookup "03" = some "ThaiPBS" ∧
    dttgDispnameExceptions.lookup "27" = some "ช่อง 8" := by
  refine ⟨?_, by decide, by decide⟩
  cases hx : dttgDispnameExceptions.lookup ch.channelNo <;>
    cases hf : chlogos.find? (fun logo => logo.channelNo == ch.channelNo) <;>
    by_cases hn : ch.stnNickname = ch.stnName <;>
    simp [mkChannelElement, displayNameTexts, mkDisplayName, Element.children,
      Element.tag, Element.txt, hx, hf, hn]

/-- The icon children of a channel element, as a function of the first
logo record whose `channelNo` matches. -/
theorem iconSrcs_mkChannelElement (tbl : List (String × String))
    (chlogos : List LogoRecord) (ch : ChannelRecord) :
    iconSrcs (mkChannelElement tbl chlogos ch) =
      match chlogos.find? (fun logo => logo.channelNo == ch.channelNo) with
      | some logo => ["data:image/png;base64," ++ logo.channelLogoImage]
      | none => [] := by
  cases hx : tbl.lookup ch.channelNo <;>
    cases hf : chlogos.find? (fun logo => logo.channelNo == ch.channelNo) <;>
    by_cases hn : ch.stnNickname = ch.stnName <;>
    simp [mkChannelElement, iconSrcs, mkDisplayName, Element.children,
      Element.tag, Element.attr, Element.attrs, hx, hf, hn]

/-- C6: a channel element has no icon exactly when no logo record's
`channelNo` matches, and when the logo list decomposes with its first
match at `logo`, exactly one icon is emitted whose `src` is
`data:image/png;base64,` followed verbatim by that logo's payload. -/
theorem channel_icon_spec (tbl : List (String × String))
    (chlogos : List LogoRecord) (ch : ChannelRecord) :
    (iconSrcs (mkChannelElement tbl chlogos ch) = [] ↔
      ∀ logo ∈ chlogos, logo.channelNo ≠ ch.channelNo) ∧
    (∀ pre logo post, chlogos = pre ++ logo :: post →
      (∀ l' ∈ pre, l'.channelNo ≠ ch.channelNo) →
      logo.channelNo = ch.channelNo →
      iconSrcs (mkChannelElement tbl chlogos ch) =
        ["data:image/png;base64," ++ logo.channelLogoImage]) := by
  constructor
  · rw [iconSrcs_mkChannelElement]
    cases hf : chlogos.find? (fun logo => logo.channelNo == ch.channelNo) with
    | none =>
      simp only [List.find?_eq_none, beq_iff_eq] at hf
      simpa using hf
    | some logo =>
      have h1 : logo.channelNo = ch.channelNo := by
        simpa using List.find?_some hf
      have h2 := List.mem_of_find?_eq_some hf
      constructor
      · intro hcon; exact absurd hcon (by simp)
      · intro hall; exact absurd h1 (hall logo h2)
  · intro pre logo post hsplit hpre hlogo
    rw [iconSrcs_mkChannelElement, hsplit, List.find?_append]
    have hpre' : pre.find? (fun l' => l'.channelNo == ch.channelNo) = none :=
      List.find?_eq_none.mpr (by simpa using hpre)
    rw [hpre']
    simp [List.find?_cons, hlogo]

/-- Witness for C6: with a single matching logo for `sampleChannel`, the
emitted icon's data URL carries its payload verbatim. -/
theorem channel_icon_witness :
    (iconSrcs (mkChannelElement dttgDispnameExceptions
        [⟨"99", "AAAA"⟩] sampleChannel) = [] ↔
      ∀ logo ∈ ([⟨"99", "AAAA"⟩] : List LogoRecord),
        logo.channelNo ≠ sampleChannel.channelNo) ∧
    iconSrcs (mkChannelElement dttgDispnameExceptions
        [⟨"99", "AAAA"⟩] sampleChannel) =
      ["data:image/png;base64," ++ "AAAA"] :=
  ⟨(channel_icon_spec dttgDispnameExceptions [⟨"99", "AAAA"⟩] sampleChannel).1,
   (channel_icon_spec dttgDispnameExceptions [⟨"99", "AAAA"⟩] sampleChannel).2
     [] ⟨"99", "AAAA"⟩ [] rfl (by simp) (by decide)⟩

/-- C5: when a record's start and duration parse, the duration is exactly
`3600·hours + 60·minutes + seconds` seconds from its three
colon-separated (possibly fractional) fields, and the emitted programme's
`start` and `stop` attributes are the `YYYYMMDDHHMMSS` rendering of the
start instant and of the start-plus-duration instant, each followed by
the fixed suffix `+0700`. -/
theorem programme_time_spec (p : ProgramRecord) (t : ℤ) (q : ℚ)
    (hs : parseStart p = some t)
    (hd : parse_duration p.pgDuration = some q) :
    (∀ hrs mins secs qh qm qs,
        splitOnChar ':' p.pgDuration = [hrs, mins, secs] →
        parseDecimal hrs = some qh → parseDecimal mins = some qm →
        parseDecimal secs = some qs →
        q = 3600 * qh + 60 * qm + qs) ∧
    ∃ el, mkProgrammeElement p = some el ∧
      el.attr "start" = some (fmtTs t ++ " +0700") ∧
      el.attr "stop" = some (fmtTs (t + ⌊q⌋) ++ " +0700") := by
  constructor
  · intro hrs mins secs qh qm qs hsplit hh hm hsec
    unfold parse_duration at hd
    rw [hsplit] at hd
    simp only [hh, hm, hsec, Option.pure_def, Option.bind_eq_bind,
      Option.some_bind, Option.some.injEq] at hd
    exact hd.symm
  · unfold mkProgrammeElement
    rw [hs, hd]
    refine ⟨_, rfl, ?_, ?_⟩
    · simp [Element.attr, Element.attrs, List.lookup, fmtTsTz,
        Int.floor_intCast]
    · simp [Element.attr, Element.attrs, List.lookup, fmtTsTz,
        Int.floor_int_add]

/-- Witness for C5: `sampleProg`'s duration `"1:30:00"` parses to 5400
seconds and its programme element renders both timestamps with the
`+0700` suffix. -/
theorem programme_time_witness :
    (∀ hrs mins secs qh qm qs,
        splitOnChar ':' sampleProg.pgDuration = [hrs, mins, secs] →
        parseDecimal hrs = some qh → parseDecimal mins = some qm →
        parseDecimal secs = some qs →
        (5400 : ℚ) = 3600 * qh + 60 * qm + qs) ∧
    ∃ el, mkProgrammeElement sampleProg = some el ∧
      el.attr "start" = some (fmtTs 1735732800 ++ " +0700") ∧
      el.attr "stop" = some (fmtTs (1735732800 + ⌊(5400 : ℚ)⌋) ++ " +0700") :=
  programme_time_spec sampleProg 1735732800 5400 (by decide)
    (by
      simp [parse_duration, parseDecimal, splitOnChar, splitOnCharAux,
        digitsToNat, digitsToNatAux]
      norm_num)

/-- C10: when a record's duration has a fractional-second component, the
rendered `stop` attribute is the whole-second (floored) serialization of
`start + duration`, and the exact stop instant differs from the instant
the rendering shows — the sub-second part is dropped. -/
theorem stop_truncation_spec (p : ProgramRecord) (t : ℤ) (q : ℚ)
    (hs : parseStart p = some t)
    (hd : parse_duration p.pgDuration = some q)
    (hfrac : (⌊q⌋ : ℚ) ≠ q) :
    ∃ el, mkProgrammeElement p = some el ∧
      el.attr "stop" = some (fmtTs (t + ⌊q⌋) ++ " +0700") ∧
      (t : ℚ) + q ≠ ((t + ⌊q⌋ : ℤ) : ℚ) := by
  unfold mkProgrammeElement
  rw [hs, hd]
  refine ⟨_, rfl, ?_, ?_⟩
  · simp [Element.attr, Element.attrs, List.lookup, fmtTsTz,
      Int.floor_int_add]
  · push_cast
    intro hcon
    exact hfrac (by linarith)

/-- Witness for C10: `fracProg`'s duration `"0:00:30.5"` parses to 30.5
seconds; its rendered stop uses only the floored 30 whole seconds. -/
theorem stop_truncation_witness :
    ∃ el, mkProgrammeElement fracProg = some el ∧
      el.attr "stop" =
        some (fmtTs (1735732800 + ⌊(61 : ℚ)/2⌋) ++ " +0700") ∧
      ((1735732800 : ℤ) : ℚ) + (61 : ℚ)/2 ≠
        ((1735732800 + ⌊(61 : ℚ)/2⌋ : ℤ) : ℚ) :=
  stop_truncation_spec fracProg 1735732800 ((61 : ℚ)/2) (by decide)
    (by
      simp [parse_duration, parseDecimal, splitOnChar, splitOnCharAux,
        digitsToNat, digitsToNatAux]
      rw [show ("5".length) = 1 from rfl]
      norm_num)
    (by norm_num)

/-- A programme element built from a record is tagged `programme` and
references the record's channel key with the fixed id suffix. -/
theorem mkProgrammeElement_some {p : ProgramRecord} {el : Element}
    (h : mkProgrammeElement p = some el) :
    el.tag = "programme" ∧
    el.attr "channel" = some (p.channelNo ++ ".dttguide.nbtc.go.th") := by
  unfold mkProgrammeElement at h
  cases hs : parseStart p with
  | none => rw [hs] at h; simp at h
  | some t =>
    rw [hs] at h
    cases hd : parse_duration p.pgDuration with
    | none => rw [hd] at h; simp at h
    | some q =>
      rw [hd] at h
      simp only [Option.pure_def, Option.bind_eq_bind, Option.some_bind,
        Option.some.injEq] at h
      subst h
      exact ⟨rfl, rfl⟩

/-- Every element produced by `programme_from_programdata` comes from
some input record. -/
theorem programme_from_programdata_mem {pd : List ProgramRecord}
    {els : List Element} (h : programme_from_programdata pd = some els) :
    ∀ el ∈ els, ∃ p ∈ pd, mkProgrammeElement p = some el := by
  induction pd generalizing els with
  | nil =>
    simp only [programme_from_programdata, Option.some.injEq] at h
    subst h
    simp
  | cons p ps ih =>
    simp only [programme_from_programdata, Option.pure_def,
      Option.bind_eq_bind] at h
    cases he : mkProgrammeElement p with
    | none => rw [he] at h; simp at h
    | some e =>
      rw [he] at h
      cases hr : programme_from_programdata ps with
      | none => rw [hr] at h; simp at h
      | some rest =>
        rw [hr] at h
        simp only [Option.some_bind, Option.some.injEq] at h
        subst h
        intro el hel
        rcases List.mem_cons.mp hel with rfl | hel'
        · exact ⟨p, List.mem_cons_self p ps, he⟩
        · rcases ih hr el hel' with ⟨p', hp', hmk⟩
          exact ⟨p', List.mem_cons_of_mem p hp', hmk⟩

/-- The filtered program list is a sublist of the input. -/
theorem filterPrograms_subset {e l : Option ℤ} {pd fpd : List ProgramRecord}
    (h : filterPrograms e l pd = some fpd) : ∀ p ∈ fpd, p ∈ pd := by
  induction pd generalizing fpd with
  | nil =>
    simp only [filterPrograms, Option.some.injEq] at h
    subst h
    simp
  | cons p ps ih =>
    simp only [filterPrograms, Option.pure_def, Option.bind_eq_bind] at h
    cases hw : whithin_start_dates e l p with
    | none => rw [hw] at h; simp at h
    | some b =>
      rw [hw] at h
      cases hr : filterPrograms e l ps with
      | none => rw [hr] at h; simp at h
      | some rest =>
        rw [hr] at h
        simp only [Option.some_bind, Option.some.injEq] at h
        subst h
        intro x hx
        cases b with
        | false => exact List.mem_cons_of_mem p (ih hr x hx)
        | true =>
          rcases List.mem_cons.mp hx with rfl | hx'
          · exact List.mem_cons_self x ps
          · exact List.mem_cons_of_mem p (ih hr x hx')

/-- Counterexample to C2 as stated: with an empty channel list and one
(surviving) program record, the emitted programme references channel
`99.dttguide.nbtc.go.th` but no channel element is emitted at all, so the
reference set is not a subset of the emitted channel ids. -/
theorem channel_reconciliation_cx :
    ¬ (∀ doc ∈ buildTvDoc [] [] [sampleProg],
        ∀ c ∈ progChannelRefs doc, c ∈ channelIds doc) := by
  intro h
  exact absurd (h _ rfl "99.dttguide.nbtc.go.th" (by decide)) (by decide)

/-- C2 (amended): if additionally every input program record's
`channelNo` occurs among the channel records' `channelNo`s, then every
emitted programme's `channel` attribute is among the emitted channel
`id`s. -/
theorem channel_reconciliation_amended
    (chnames : List ChannelRecord) (chlogos : List LogoRecord)
    (pd fpd : List ProgramRecord) (e l : Option ℤ) (doc : Element)
    (hf : filterPrograms e l pd = some fpd)
    (hdoc : buildTvDoc chnames chlogos fpd = some doc)
    (hcons : ∀ p ∈ pd, p.channelNo ∈ chnames.map ChannelRecord.channelNo) :
    ∀ c ∈ progChannelRefs doc, c ∈ channelIds doc := by
  unfold buildTvDoc at hdoc
  cases hpp : programme_from_programdata fpd with
  | none => rw [hpp] at hdoc; simp at hdoc
  | some els =>
    rw [hpp] at hdoc
    simp only [Option.pure_def, Option.bind_eq_bind, Option.some_bind,
      Option.some.injEq] at hdoc
    subst hdoc
    intro c hc
    unfold progChannelRefs at hc
    simp only [Element.children] at hc
    rcases List.mem_filterMap.mp hc with ⟨a, ha, hfa⟩
    rcases List.mem_append.mp ha with hchan | hprog
    · unfold channels_from_chnames_and_chlogos at hchan
      rcases List.mem_map.mp hchan with ⟨ch, -, rfl⟩
      simp [mkChannelElement, Element.tag] at hfa
    · rcases programme_from_programdata_mem hpp a hprog with ⟨p, hp, hmk⟩
      obtain ⟨htag, hattr⟩ := mkProgrammeElement_some hmk
      rw [htag] at hfa
      simp only [if_true, hattr, Option.some.injEq] at hfa
      subst hfa
      have hpd : p ∈ pd := filterPrograms_subset hf p hp
      rcases List.mem_map.mp (hcons p hpd) with ⟨ch, hch, hcheq⟩
      have hmem : ch ∈ chnames.filter
          (fun ch => decide (ch.channelNo ∈ fpd.map (·.channelNo))) := by
        refine List.mem_filter.mpr ⟨hch, ?_⟩
        simp only [decide_eq_true_eq]
        rw [hcheq]
        exact List.mem_map.mpr ⟨p, hp, rfl⟩
      unfold channelIds
      simp only [Element.children]
      refine List.mem_filterMap.mpr
        ⟨mkChannelElement dttgDispnameExceptions chlogos ch, ?_, ?_⟩
      · refine List.mem_append.mpr (Or.inl ?_)
        unfold channels_from_chnames_and_chlogos
        exact List.mem_map.mpr ⟨ch, hmem, rfl⟩
      · simp [mkChannelElement, Element.tag, Element.attr, Element.attrs,
          List.lookup, hcheq]

/-- Witness for the amended C2: with one channel record matching the one
program record, every programme reference is among the emitted channel
ids. -/
theorem channel_reconciliation_witness :
    (buildTvDoc [sampleChannel] [] [sampleProg]).elim False
      (fun doc => ∀ c ∈ progChannelRefs doc, c ∈ channelIds doc) := by
  cases hdoc : buildTvDoc [sampleChannel] [] [sampleProg] with
  | none =>
    have h1 : (buildTvDoc [sampleChannel] [] [sampleProg]).isSome = true := by
      decide
    rw [hdoc] at h1
    simp at h1
  | some doc =>
    simp only [Option.elim]
    exact channel_reconciliation_amended [sampleChannel] [] [sampleProg]
      [sampleProg] none none doc (by decide) hdoc (by decide)

/-- C8: whenever the pipeline's stages all succeed, the run's effect
trace contains the write of the full document regardless of the coverage
verdict; on coverage success the trace is exactly the write followed by
exit code 0, and on coverage failure it is the write, then the warning on
standard error, then exit code 1. -/
theorem main_output_exit_spec (chnames : List ChannelRecord)
    (chlogos : List LogoRecord) (pd fpd : List ProgramRecord)
    (e l : Option ℤ) (doc : Element) (covers : Bool)
    (hf : filterPrograms e l pd = some fpd)
    (hb : buildTvDoc chnames chlogos fpd = some doc)
    (hc : coversWindow e l fpd = some covers) :
    ∃ tr, mainRun chnames chlogos pd e l = some tr ∧
      Event.writeDoc doc ∈ tr ∧
      (covers = true → tr = [Event.writeDoc doc, Event.exitCode 0]) ∧
      (covers = false →
        tr = [Event.writeDoc doc, Event.warnStderr, Event.exitCode 1]) := by
  unfold mainRun fetch_filter_convert
  rw [hf]
  simp only [Option.pure_def, Option.bind_eq_bind, Option.some_bind]
  rw [hb]
  simp only [Option.some_bind]
  rw [hc]
  simp only [Option.some_bind]
  cases covers <;> simp

/-- Witness for C8: the empty run writes the bare `<tv>` document and
exits 0. -/
theorem main_output_exit_witness :
    ∃ tr, mainRun [] [] [] none none = some tr ∧
      Event.writeDoc (.el "tv" tvRootAttrs none []) ∈ tr ∧
      (true = true →
        tr = [Event.writeDoc (.el "tv" tvRootAttrs none []),
          Event.exitCode 0]) ∧
      (true = false →
        tr = [Event.writeDoc (.el "tv" tvRootAttrs none []),
          Event.warnStderr, Event.exitCode 1]) :=
  main_output_exit_spec [] [] [] [] none none (.el "tv" tvRootAttrs none [])
    true rfl rfl rfl

/-- Counterexample to C9 as stated: the channel-name accessor does not
issue one request per channel category — the fetch stage's request trace
contains no channel-name request carrying a category at all (it issues a
single category-less request). -/
theorem fetch_per_category_cx :
    ¬ ((⟨.getChannelNameWeb, some .NATIONAL⟩ : ApiRequest) ∈
        (fetchStage emptyApi).1 ∧
       (⟨.getChannelNameWeb, some .LOCAL⟩ : ApiRequest) ∈
        (fetchStage emptyApi).1) := by
  decide

/-- C9 (amended): the fetch stage issues exactly five requests — one
category-less channel-name request, then one logo request and one
program-data request per category, NATIONAL before LOCAL — and the logo
and program payloads are the concatenations of the per-category results
in category order, while the channel-name payload comes from the single
call. -/
theorem fetch_per_category_amended (api : GuideApi) :
    (fetchStage api).1 =
      [⟨.getChannelNameWeb, none⟩,
       ⟨.getChannelLogoMediaWeb, some .NATIONAL⟩,
       ⟨.getChannelLogoMediaWeb, some .LOCAL⟩,
       ⟨.getProgramDataWeb, some .NATIONAL⟩,
       ⟨.getProgramDataWeb, some .LOCAL⟩] ∧
    (fetchStage api).2.1 = api.channelNames ∧
    (fetchStage api).2.2.1 =
      api.channelLogos .NATIONAL ++ api.channelLogos .LOCAL ∧
    (fetchStage api).2.2.2 =
      api.programData .NATIONAL ++ api.programData .LOCAL :=
  ⟨rfl, rfl, rfl, rfl⟩

end DTTG
